import Mathlib

/-!
Verification of the delivery-status synchronization subsystem of a
WhatsApp message-status tracker.  The backend (src/backend/server.js) is
an Express webhook server that records provider status callbacks in an
in-memory `Map` (`messageStatuses`) and fans updates out over WebSocket;
the frontend (src/frontend/src/App.tsx) dispatches template messages
with a free-text fallback, records the provider-assigned message id per
item index, and reconciles incoming `status_update` events against that
mapping.

JS `Map`s are modelled as association lists kept in insertion order
(first occurrence wins on lookup, matching `Map.get`); JS object records
with numeric keys (`Record<number, T>`) are modelled as association
lists kept in ascending key order, matching the enumeration order of
`Object.entries` / `Object.values` for integer-like keys.
-/

/-! ## JS `Map` primitives (backend `messageStatuses`) -/

/-- JS `Map.set`: update the value in place if the key is present,
otherwise append the new entry at the end (insertion order). -/
def mapSet {κ α : Type} [DecidableEq κ] : List (κ × α) → κ → α → List (κ × α)
  | [], k, v => [(k, v)]
  | (k', v') :: rest, k, v =>
    if k' = k then (k, v) :: rest else (k', v') :: mapSet rest k v

/-- JS `Map.get`: value at the first occurrence of the key, if any. -/
def mapGet {κ α : Type} [DecidableEq κ] (m : List (κ × α)) (k : κ) : Option α :=
  (m.find? (fun p => p.1 = k)).map (fun p => p.2)

/-- Keys of a map, in entry order. -/
def mapKeys {κ α : Type} (m : List (κ × α)) : List κ := m.map Prod.fst

/-! ## Status Store (server.js lines 22, 97-110, 139-142) -/

/-- `messageStatuses.set(messageId, statusType)` — the store mutation the
webhook performs for each status notification.  Total: it never rejects
a write. -/
def recordStatus (store : List (String × String)) (id st : String) :
    List (String × String) :=
  mapSet store id st

/-- The store obtained by replaying a sequence of `(messageId, statusType)`
writes, in order, starting from the empty map. -/
def applyWrites (writes : List (String × String)) : List (String × String) :=
  writes.foldl (fun m p => recordStatus m p.1 p.2) []

/-- `Object.fromEntries(messageStatuses)` as served by `GET /api/statuses`
and embedded in the `initial` snapshot: the store's entries themselves. -/
def getAll (store : List (String × String)) : List (String × String) := store

/-- The last state written for an identifier in a sequence of writes
(what last-write-wins must yield). -/
def lastWrite : List (String × String) → String → Option String
  | [], _ => none
  | (k, v) :: rest, id =>
    match lastWrite rest id with
    | some v' => some v'
    | none => if k = id then some v else none

/-! ## Broadcast Channel (server.js lines 25-54) -/

/-- A connected WebSocket client: a handle plus its `readyState`
(`1` is `WebSocket.OPEN`). -/
structure WsClient where
  cid : Nat
  readyState : Nat
deriving DecidableEq

/-- Messages the server pushes to observers. -/
inductive ServerMsg where
  | initial (statuses : List (String × String))
  | statusUpdate (messageId status : String)
deriving DecidableEq

/-- `wss.on('connection')`: the messages sent to a newly connected
observer — exactly one `initial` snapshot of the whole store. -/
def onConnect (store : List (String × String)) : List ServerMsg :=
  [ServerMsg.initial (getAll store)]

/-- `broadcastStatusUpdate(messageId, status)`: the deliveries performed —
one `status_update` message to each client whose `readyState` is open;
all other clients are skipped. -/
def broadcastStatusUpdate (clients : List WsClient) (messageId status : String) :
    List (WsClient × ServerMsg) :=
  (clients.filter (fun c => c.readyState = 1)).map
    (fun c => (c, ServerMsg.statusUpdate messageId status))

/-! ## Map lemmas -/

theorem mapGet_cons {κ α : Type} [DecidableEq κ] (k0 : κ) (v0 : α)
    (rest : List (κ × α)) (k : κ) :
    mapGet ((k0, v0) :: rest) k = if k0 = k then some v0 else mapGet rest k := by
  by_cases h : k0 = k <;> simp [mapGet, List.find?, h]

theorem mapGet_mapSet {κ α : Type} [DecidableEq κ] (m : List (κ × α)) (k k' : κ) (v : α) :
    mapGet (mapSet m k v) k' = if k = k' then some v else mapGet m k' := by
  induction m with
  | nil => exact mapGet_cons k v [] k'
  | cons p rest ih =>
    obtain ⟨k0, v0⟩ := p
    simp only [mapSet]
    by_cases h0 : k0 = k
    · rw [if_pos h0, mapGet_cons, mapGet_cons, h0]
      by_cases h : k = k' <;> simp [h]
    · rw [if_neg h0, mapGet_cons, mapGet_cons, ih]
      by_cases h1 : k0 = k'
      · have h2 : ¬ k = k' := fun hh => h0 (h1.trans hh.symm)
        simp [h1, h2]
      · simp [h1]

theorem mapGet_foldl_recordStatus (writes : List (String × String))
    (m : List (String × String)) (k : String) :
    mapGet (writes.foldl (fun m p => recordStatus m p.1 p.2) m) k =
      match lastWrite writes k with
      | some v => some v
      | none => mapGet m k := by
  induction writes generalizing m with
  | nil => rfl
  | cons w rest ih =>
    obtain ⟨k0, v0⟩ := w
    simp only [List.foldl_cons, lastWrite]
    rw [ih]
    cases h : lastWrite rest k with
    | some v => simp
    | none =>
      simp only [recordStatus, mapGet_mapSet]
      by_cases hk : k0 = k <;> simp [hk]

theorem mapGet_isSome_iff_mem_keys {κ α : Type} [DecidableEq κ]
    (m : List (κ × α)) (k : κ) :
    (mapGet m k).isSome ↔ k ∈ mapKeys m := by
  induction m with
  | nil => simp [mapGet, mapKeys]
  | cons p rest ih =>
    obtain ⟨k0, v0⟩ := p
    rw [mapGet_cons]
    by_cases h : k0 = k
    · subst h
      simp [mapKeys]
    · have h' : ¬ k = k0 := fun hh => h hh.symm
      simp [h, mapKeys, h', ih]

theorem lastWrite_isSome_iff (writes : List (String × String)) (k : String) :
    (lastWrite writes k).isSome ↔ k ∈ writes.map Prod.fst := by
  induction writes with
  | nil => simp [lastWrite]
  | cons w rest ih =>
    obtain ⟨k0, v0⟩ := w
    simp only [lastWrite, List.map_cons, List.mem_cons]
    cases h : lastWrite rest k with
    | some v =>
      simp only [Option.isSome_some, true_iff]
      rw [h] at ih
      exact Or.inr (ih.mp rfl)
    | none =>
      rw [h] at ih
      simp only [Option.isSome_none, Bool.false_eq_true, false_iff] at ih
      by_cases hk : k0 = k
      · simp [hk]
      · have h' : ¬ k = k0 := fun hh => hk hh.symm
        simp [hk, h', ih]

theorem mapKeys_mapSet {κ α : Type} [DecidableEq κ] (m : List (κ × α)) (k : κ) (v : α) :
    mapKeys (mapSet m k v) = if k ∈ mapKeys m then mapKeys m else mapKeys m ++ [k] := by
  induction m with
  | nil => simp [mapSet, mapKeys]
  | cons p rest ih =>
    obtain ⟨k0, v0⟩ := p
    by_cases h : k0 = k
    · subst h
      simp [mapSet, mapKeys]
    · have h' : ¬ k = k0 := fun hh => h hh.symm
      simp only [mapSet, if_neg h, mapKeys, List.map_cons, List.mem_cons]
      simp only [mapKeys] at ih
      rw [ih]
      by_cases hmem : k ∈ rest.map Prod.fst <;> simp [hmem, h']

theorem nodup_mapKeys_mapSet {κ α : Type} [DecidableEq κ]
    (m : List (κ × α)) (k : κ) (v : α) (h : (mapKeys m).Nodup) :
    (mapKeys (mapSet m k v)).Nodup := by
  rw [mapKeys_mapSet]
  by_cases hmem : k ∈ mapKeys m
  · simpa [hmem] using h
  · have hd : (mapKeys m).Disjoint [k] := by
      intro a ha hak
      simp only [List.mem_singleton] at hak
      exact hmem (hak ▸ ha)
    simpa [hmem] using List.Nodup.append h (List.nodup_singleton k) hd

theorem nodup_mapKeys_applyWrites (writes : List (String × String)) :
    (mapKeys (applyWrites writes)).Nodup := by
  have main : ∀ (ws : List (String × String)) (m : List (String × String)),
      (mapKeys m).Nodup →
      (mapKeys (ws.foldl (fun m p => recordStatus m p.1 p.2) m)).Nodup := by
    intro ws
    induction ws with
    | nil => intro m hm; simpa using hm
    | cons w rest ih =>
      intro m hm
      exact ih _ (nodup_mapKeys_mapSet m w.1 w.2 hm)
  simpa [applyWrites] using main writes [] (by simp [mapKeys])

/-! ## Claim theorems: Status Store and snapshot -/

/-- C1: after any sequence of `recordStatus` writes, `getAll` maps every
identifier to the last state written for it (last-write-wins), and a
single `recordStatus` write always lands (the store never rejects a
write). -/
theorem recordStatus_lastWriteWins :
    (∀ (writes : List (String × String)) (k : String),
      mapGet (getAll (applyWrites writes)) k = lastWrite writes k) ∧
    (∀ (m : List (String × String)) (id st : String),
      mapGet (recordStatus m id st) id = some st) := by
  constructor
  · intro writes k
    have h := mapGet_foldl_recordStatus writes [] k
    simp only [applyWrites, getAll]
    rw [h]
    cases hl : lastWrite writes k <;> simp [mapGet]
  · intro m id st
    simp [recordStatus, mapGet_mapSet]

/-- C2: an observer connecting after a sequence of writes receives
exactly one message, the `initial` snapshot; the snapshot's keys are
exactly the identifiers that were written (with no duplicates), and each
is mapped to the last state written for it. -/
theorem onConnect_snapshot (writes : List (String × String)) :
    onConnect (applyWrites writes) = [ServerMsg.initial (getAll (applyWrites writes))] ∧
    (mapKeys (getAll (applyWrites writes))).Nodup ∧
    (∀ id, mapGet (getAll (applyWrites writes)) id = lastWrite writes id) ∧
    (∀ id, id ∈ mapKeys (getAll (applyWrites writes)) ↔ id ∈ writes.map Prod.fst) := by
  refine ⟨rfl, nodup_mapKeys_applyWrites writes, ?_, ?_⟩
  · intro id
    have h := mapGet_foldl_recordStatus writes [] id
    simp only [applyWrites, getAll]
    rw [h]
    cases hl : lastWrite writes id <;> simp [mapGet]
  · intro id
    rw [← mapGet_isSome_iff_mem_keys, ← lastWrite_isSome_iff]
    have h := mapGet_foldl_recordStatus writes [] id
    simp only [applyWrites, getAll]
    rw [h]
    cases hl : lastWrite writes id <;> simp [mapGet]

/-! ## Claim theorem: Broadcast Channel -/

/-- C3: `broadcastStatusUpdate` delivers the `status_update` message to
every currently-connected client whose channel is open, and every
delivery it performs goes to a connected open client and carries exactly
that message — clients whose channel is not open are silently skipped,
and a client no longer in the connection set (disconnected strictly
before the broadcast) receives nothing. -/
theorem broadcastStatusUpdate_deliveries (clients : List WsClient)
    (messageId status : String) :
    (∀ c ∈ clients, c.readyState = 1 →
      (c, ServerMsg.statusUpdate messageId status) ∈
        broadcastStatusUpdate clients messageId status) ∧
    (∀ c m, (c, m) ∈ broadcastStatusUpdate clients messageId status →
      c ∈ clients ∧ c.readyState = 1 ∧ m = ServerMsg.statusUpdate messageId status) := by
  constructor
  · intro c hc hopen
    simp only [broadcastStatusUpdate, List.mem_map]
    exact ⟨c, List.mem_filter.mpr ⟨hc, by simp [hopen]⟩, rfl⟩
  · intro c m hm
    simp only [broadcastStatusUpdate, List.mem_map] at hm
    obtain ⟨a, ha, heq⟩ := hm
    obtain ⟨hmem, hopen⟩ := List.mem_filter.mp ha
    cases heq
    exact ⟨hmem, by simpa using hopen, rfl⟩

/-- Witness for C3 at a concrete connection set: a broadcast with two
connected clients, one open (`readyState = 1`) and one closing
(`readyState = 3`); the open one receives the message. -/
theorem broadcastStatusUpdate_deliveries_witness :
    (⟨0, 1⟩, ServerMsg.statusUpdate "wamid.1" "delivered") ∈
      broadcastStatusUpdate [⟨0, 1⟩, ⟨1, 3⟩] "wamid.1" "delivered" :=
  (broadcastStatusUpdate_deliveries [⟨0, 1⟩, ⟨1, 3⟩] "wamid.1" "delivered").1
    ⟨0, 1⟩ (by simp) rfl

/-! ## Callback Ingestion (server.js lines 83-130)

The webhook body is arbitrary JSON.  `Json.null` stands for both JS
`null` and `undefined` (both are falsy, both short-circuit optional
chaining, and plain property access on either throws). -/

inductive Json where
  | null : Json
  | bool (b : Bool) : Json
  | num (n : Int) : Json
  | str (s : String) : Json
  | arr (elems : List Json) : Json
  | obj (fields : List (String × Json)) : Json

/-- JS `===` against a string literal. -/
def isStr (j : Json) (s : String) : Bool :=
  match j with
  | Json.str s' => s' == s
  | _ => false

/-- JS property access `x.k`: throws (`.error`) on `null`/`undefined`,
yields the field on an object (or `undefined`, modelled `null`, when the
field is absent), and `undefined` on any other primitive or array. -/
def jsGet : Json → String → Except Unit Json
  | Json.null, _ => Except.error ()
  | Json.obj fields, k =>
    match fields.find? (fun p => p.1 = k) with
    | some p => Except.ok p.2
    | none => Except.ok Json.null
  | _, _ => Except.ok Json.null

/-- JS truthiness of a value. -/
def truthy : Json → Bool
  | Json.null => false
  | Json.bool b => b
  | Json.num n => n != 0
  | Json.str s => s != ""
  | _ => true

/-- The `(messageId, statusType)` store writes performed during one
webhook ingestion, in order.  An `Except.error` carries the writes made
before the JS exception was thrown. -/
abbrev StoreWrites := List (Json × Json)

/-- One iteration of `value.statuses.forEach`: read `status.id` and
`status.status` and record the write. -/
def procStatuses : StoreWrites → List Json → Except StoreWrites StoreWrites
  | acc, [] => Except.ok acc
  | acc, st :: rest =>
    match jsGet st "id" with
    | Except.error _ => Except.error acc
    | Except.ok mid =>
      match jsGet st "status" with
      | Except.error _ => Except.error acc
      | Except.ok sty => procStatuses (acc ++ [(mid, sty)]) rest

/-- The body of `if (change.field === 'messages')`: process
`value.statuses` (recording writes) and then `value.messages` (log
only — but a truthy non-array still throws at `.forEach`). -/
def procValue (acc : StoreWrites) (value : Json) : Except StoreWrites StoreWrites :=
  match jsGet value "statuses" with
  | Except.error _ => Except.error acc
  | Except.ok sts =>
    let step1 : Except StoreWrites StoreWrites :=
      if truthy sts then
        match sts with
        | Json.arr l => procStatuses acc l
        | _ => Except.error acc
      else Except.ok acc
    match step1 with
    | Except.error w => Except.error w
    | Except.ok acc1 =>
      match jsGet value "messages" with
      | Except.error _ => Except.error acc1
      | Except.ok msgs =>
        if truthy msgs then
          match msgs with
          | Json.arr _ => Except.ok acc1
          | _ => Except.error acc1
        else Except.ok acc1

/-- One iteration of `entry.changes?.forEach`. -/
def procChange (acc : StoreWrites) (change : Json) : Except StoreWrites StoreWrites :=
  match jsGet change "field" with
  | Except.error _ => Except.error acc
  | Except.ok f =>
    if isStr f "messages" then
      match jsGet change "value" with
      | Except.error _ => Except.error acc
      | Except.ok v => procValue acc v
    else Except.ok acc

/-- Sequential `forEach` over a JS array, short-circuiting at the first
thrown exception. -/
def procList (f : StoreWrites → Json → Except StoreWrites StoreWrites) :
    StoreWrites → List Json → Except StoreWrites StoreWrites
  | acc, [] => Except.ok acc
  | acc, x :: rest =>
    match f acc x with
    | Except.error w => Except.error w
    | Except.ok acc1 => procList f acc1 rest

/-- Optional-chained `x?.forEach(f)`: skipped when `x` is
`null`/`undefined`, iterates when `x` is an array, throws otherwise. -/
def optForEach (f : StoreWrites → Json → Except StoreWrites StoreWrites)
    (acc : StoreWrites) : Json → Except StoreWrites StoreWrites
  | Json.null => Except.ok acc
  | Json.arr l => procList f acc l
  | _ => Except.error acc

/-- One iteration of `body.entry?.forEach`. -/
def procEntry (acc : StoreWrites) (entry : Json) : Except StoreWrites StoreWrites :=
  match jsGet entry "changes" with
  | Except.error _ => Except.error acc
  | Except.ok cs => optForEach procChange acc cs

/-- The three HTTP responses of `app.post('/webhook')`:
`200 'EVENT_RECEIVED'`, `404 'Not Found'`, `500 'Internal Server
Error'`. -/
inductive WebhookResponse where
  | eventReceived
  | notFound
  | serverError
deriving DecidableEq

/-- `app.post('/webhook')`: check `body.object`, walk
entries → changes → values, record status writes; the surrounding
`try`/`catch` turns any thrown error into a 500 response (keeping the
writes already made); an unrecognized envelope is answered 404. -/
def webhookPost (body : Json) : WebhookResponse × StoreWrites :=
  match jsGet body "object" with
  | Except.error _ => (WebhookResponse.serverError, [])
  | Except.ok o =>
    if isStr o "whatsapp_business_account" then
      match jsGet body "entry" with
      | Except.error _ => (WebhookResponse.serverError, [])
      | Except.ok es =>
        match optForEach procEntry [] es with
        | Except.error w => (WebhookResponse.serverError, w)
        | Except.ok w => (WebhookResponse.eventReceived, w)
    else (WebhookResponse.notFound, [])

/-- A change object that yields no status writes: its `field` is
readable and either is not `"messages"`, or its `value`'s `statuses` and
`messages` fields are both absent. -/
def changeNoStatuses (c : Json) : Bool :=
  match jsGet c "field" with
  | Except.error _ => false
  | Except.ok f =>
    if isStr f "messages" then
      match jsGet c "value" with
      | Except.error _ => false
      | Except.ok v =>
        match jsGet v "statuses", jsGet v "messages" with
        | Except.ok Json.null, Except.ok Json.null => true
        | _, _ => false
    else true

/-- An entry object whose `changes` are absent, or all of whose changes
yield no status writes. -/
def entryNoStatuses (e : Json) : Bool :=
  match jsGet e "changes" with
  | Except.error _ => false
  | Except.ok Json.null => true
  | Except.ok (Json.arr cs) => cs.all changeNoStatuses
  | Except.ok _ => false

theorem procList_noop (f : StoreWrites → Json → Except StoreWrites StoreWrites)
    (l : List Json) (hf : ∀ acc, ∀ x ∈ l, f acc x = Except.ok acc) :
    ∀ acc, procList f acc l = Except.ok acc := by
  induction l with
  | nil => intro acc; rfl
  | cons x rest ih =>
    intro acc
    unfold procList
    rw [hf acc x (by simp)]
    exact ih (fun acc2 y hy => hf acc2 y (by simp [hy])) acc

theorem procValue_noop (v : Json) (acc : StoreWrites)
    (hs : jsGet v "statuses" = Except.ok Json.null)
    (hm : jsGet v "messages" = Except.ok Json.null) :
    procValue acc v = Except.ok acc := by
  unfold procValue
  simp [hs, hm, truthy]

theorem procChange_noop (c : Json) (acc : StoreWrites)
    (h : changeNoStatuses c = true) : procChange acc c = Except.ok acc := by
  unfold changeNoStatuses at h
  unfold procChange
  split at h
  · simp at h
  · next f heqf =>
    try dsimp only
    by_cases hm : isStr f "messages" = true
    · rw [if_pos hm] at h ⊢
      split at h
      · simp at h
      · next v heqv =>
        try dsimp only
        split at h
        · next heqs heqm => exact procValue_noop v acc heqs heqm
        · next => simp at h
    · rw [if_neg hm]

theorem procEntry_noop (e : Json) (acc : StoreWrites)
    (h : entryNoStatuses e = true) : procEntry acc e = Except.ok acc := by
  unfold entryNoStatuses at h
  unfold procEntry
  cases hc : jsGet e "changes" with
  | error err => rw [hc] at h; simp at h
  | ok cs =>
    rw [hc] at h
    cases cs with
    | null => rfl
    | arr l =>
      simp only [List.all_eq_true] at h
      exact procList_noop procChange l
        (fun acc2 x hx => procChange_noop x acc2 (h x hx)) acc
    | bool b => simp at h
    | num n => simp at h
    | str s => simp at h
    | obj fs => simp at h

/-! ## Claim theorem: Callback Ingestion tolerance -/

/-- C6: webhook ingestion of a recognized envelope with the expected
fields absent (no `entry` array, entries without `changes`, values with
no `statuses` and no `messages`) performs no store write and answers
with the fixed success token; a JS exception thrown during ingestion is
caught and answered as a server-side fault (keeping the endpoint alive,
with whatever writes were already made); an envelope whose `object` is
not the expected account type is answered not-found. -/
theorem webhookPost_tolerant :
    (∀ body : Json,
      jsGet body "object" = Except.ok (Json.str "whatsapp_business_account") →
      jsGet body "entry" = Except.ok Json.null →
      webhookPost body = (WebhookResponse.eventReceived, [])) ∧
    (∀ (body : Json) (es : List Json),
      jsGet body "object" = Except.ok (Json.str "whatsapp_business_account") →
      jsGet body "entry" = Except.ok (Json.arr es) →
      (∀ e ∈ es, entryNoStatuses e = true) →
      webhookPost body = (WebhookResponse.eventReceived, [])) ∧
    (∀ (body es : Json) (w : StoreWrites),
      jsGet body "object" = Except.ok (Json.str "whatsapp_business_account") →
      jsGet body "entry" = Except.ok es →
      optForEach procEntry [] es = Except.error w →
      webhookPost body = (WebhookResponse.serverError, w)) ∧
    (∀ body o : Json,
      jsGet body "object" = Except.ok o →
      isStr o "whatsapp_business_account" = false →
      webhookPost body = (WebhookResponse.notFound, [])) := by
  refine ⟨?_, ?_, ?_, ?_⟩
  · intro body hobj hentry
    unfold webhookPost
    rw [hobj]
    simp only [isStr, beq_self_eq_true, if_true]
    rw [hentry]
    rfl
  · intro body es hobj hentry hall
    unfold webhookPost
    rw [hobj]
    simp only [isStr, beq_self_eq_true, if_true]
    rw [hentry]
    dsimp only
    have hok : optForEach procEntry [] (Json.arr es) = Except.ok [] :=
      procList_noop procEntry es
        (fun acc2 e he => procEntry_noop e acc2 (hall e he)) []
    rw [hok]
  · intro body es w hobj hentry herr
    unfold webhookPost
    rw [hobj]
    simp only [isStr, beq_self_eq_true, if_true]
    rw [hentry]
    dsimp only
    rw [herr]
  · intro body o hobj hne
    unfold webhookPost
    rw [hobj]
    dsimp only
    rw [hne]
    simp

/-- Witness for C6 on concrete envelopes: a recognized envelope with no
`entry`; a recognized envelope whose single change has no `statuses`; a
recognized envelope whose `entry` is a number (the `forEach` call
throws, answered as a server fault); and an unrecognized envelope. -/
theorem webhookPost_tolerant_witness :
    webhookPost (Json.obj [("object", Json.str "whatsapp_business_account")]) =
      (WebhookResponse.eventReceived, []) ∧
    webhookPost (Json.obj [("object", Json.str "whatsapp_business_account"),
        ("entry", Json.arr [Json.obj [("changes", Json.arr [Json.obj
          [("field", Json.str "messages"), ("value", Json.obj [])]])]])]) =
      (WebhookResponse.eventReceived, []) ∧
    webhookPost (Json.obj [("object", Json.str "whatsapp_business_account"),
        ("entry", Json.num 5)]) = (WebhookResponse.serverError, []) ∧
    webhookPost (Json.obj [("object", Json.str "messenger")]) =
      (WebhookResponse.notFound, []) := by
  refine ⟨?_, ?_, ?_, ?_⟩
  · exact webhookPost_tolerant.1 _ rfl rfl
  · exact webhookPost_tolerant.2.1 _ _ rfl rfl (by decide)
  · exact webhookPost_tolerant.2.2.1 _ _ _ rfl rfl rfl
  · exact webhookPost_tolerant.2.2.2 _ _ rfl rfl

/-! ## Client data model (App.tsx)

`Record<number, T>` states are association lists in ascending key
order, the enumeration order of `Object.entries` / `Object.values` for
integer-like keys; `{...prev, [k]: v}` is an order-preserving upsert. -/

/-- The six values of the client-side `MessageStatus` union type. -/
inductive MessageStatus where
  | idle
  | sending
  | sent
  | delivered
  | read
  | error
deriving DecidableEq

/-- Outcome of one axios send: `ok mid` is a success response whose
`response.data.messages?.[0]?.id` is `mid` (absent when the provider
response carries no id); `fail` is a thrown/rejected request. -/
inductive SendResult where
  | ok (messageId : Option String)
  | fail
deriving DecidableEq

/-- Upsert into a JS object record with numeric keys
(`{...prev, [k]: v}`), keeping entries in ascending key order. -/
def recSet {α : Type} : List (Nat × α) → Nat → α → List (Nat × α)
  | [], k, v => [(k, v)]
  | (k', v') :: rest, k, v =>
    if k = k' then (k, v) :: rest
    else if k < k' then (k, v) :: (k', v') :: rest
    else (k', v') :: recSet rest k v

/-- The two client state records touched by dispatch and
reconciliation: `messageStatuses : Record<number, MessageStatus>` and
`messageIds : Record<number, string>`. -/
structure ClientState where
  messageStatuses : List (Nat × MessageStatus)
  messageIds : List (Nat × String)
deriving DecidableEq

/-- Result of one `sendWhatsAppMessage(mobile, challanData, index)`
call: the client state after the call, the number of free-text fallback
sends attempted, and the destination named by a failure `alert`, if
any. -/
structure SendCallResult where
  finalState : ClientState
  textAttempts : Nat
  alerted : Option String
deriving DecidableEq

/-- The success tail shared by both send paths: store the message id for
tracking when the response carries one, then mark the item `sent`. -/
def applySendSuccess (s : ClientState) (index : Nat) : Option String → ClientState
  | some mid =>
    { messageStatuses := recSet s.messageStatuses index MessageStatus.sent,
      messageIds := recSet s.messageIds index mid }
  | none =>
    { s with messageStatuses := recSet s.messageStatuses index MessageStatus.sent }

/-- `sendWhatsAppMessage`: mark the item `sending`; attempt the template
send; on failure attempt exactly one free-text send; on double failure
mark `error`, record no id, and alert naming the destination. -/
def sendWhatsAppMessage (s : ClientState) (mobile : String) (index : Nat)
    (templateRes textRes : SendResult) : SendCallResult :=
  let s1 : ClientState :=
    { s with messageStatuses := recSet s.messageStatuses index MessageStatus.sending }
  match templateRes with
  | SendResult.ok mid =>
    { finalState := applySendSuccess s1 index mid, textAttempts := 0, alerted := none }
  | SendResult.fail =>
    match textRes with
    | SendResult.ok mid =>
      { finalState := applySendSuccess s1 index mid, textAttempts := 1, alerted := none }
    | SendResult.fail =>
      { finalState :=
          { s1 with
            messageStatuses := recSet s1.messageStatuses index MessageStatus.error },
        textAttempts := 1,
        alerted := some mobile }

/-- Parsed WebSocket messages the client reacts to. -/
inductive ClientEvent where
  | statusUpdate (messageId : String) (status : MessageStatus)
  | initial (statuses : List (String × String))
deriving DecidableEq

/-- `ws.onmessage`: on `status_update`, reverse-look-up the item index
by message id over `Object.entries(messageIds)` (ascending key order)
and, when found, set that index's displayed status; when not found, drop
the event; on `initial`, only log — no state is touched. -/
def wsOnMessage (s : ClientState) : ClientEvent → ClientState
  | ClientEvent.statusUpdate mid st =>
    match s.messageIds.find? (fun p => p.2 = mid) with
    | some p => { s with messageStatuses := recSet s.messageStatuses p.1 st }
    | none => s
  | ClientEvent.initial _ => s

/-- `messageStatuses[index] || 'idle'` — the status displayed for an
item. -/
def statusAt (sts : List (Nat × MessageStatus)) (i : Nat) : MessageStatus :=
  (mapGet sts i).getD MessageStatus.idle

/-- The per-item send button's `disabled` condition. -/
def sendBtnDisabled (st : MessageStatus) : Bool :=
  st = MessageStatus.sending || st = MessageStatus.sent ||
    st = MessageStatus.delivered || st = MessageStatus.read

/-- The `Send All Messages` button's `disabled` condition:
`Object.values(messageStatuses).some(status => status === 'sending')`. -/
def sendAllDisabled (sts : List (Nat × MessageStatus)) : Bool :=
  sts.any (fun p => p.2 = MessageStatus.sending)

/-- One dispatched item of a whole-batch send: destination plus the
outcomes of its template and free-text sends. -/
structure BatchItem where
  mobile : String
  templateRes : SendResult
  textRes : SendResult
deriving DecidableEq

/-- The `for` loop of `sendAllMessages`: send item `i`, then `i + 1`,
..., each `await`ed before the next starts; the loop has no per-item
status guard. -/
def batchRun (s : ClientState) (i : Nat) : List BatchItem → ClientState
  | [] => s
  | item :: rest =>
    batchRun
      (sendWhatsAppMessage s item.mobile i item.templateRes item.textRes).finalState
      (i + 1) rest

/-- The operations that can touch the client state once a batch is
prepared: a per-item send button click, a confirmed `Send All Messages`
click, an incoming WebSocket message, and preparing a new batch (file
upload or reset, which clears both records).  A disabled button cannot
fire, so `itemSend` is a no-op when the item's status disables its
button, and `batchSend` is a no-op while some item is `sending`. -/
inductive ClientOp where
  | itemSend (index : Nat) (mobile : String) (templateRes textRes : SendResult)
  | batchSend (items : List BatchItem)
  | wsEvent (ev : ClientEvent)
  | newBatch
deriving DecidableEq

/-- Effect of one operation on the client state. -/
def stepOp (s : ClientState) : ClientOp → ClientState
  | ClientOp.itemSend i mobile tres xres =>
    if sendBtnDisabled (statusAt s.messageStatuses i) then s
    else (sendWhatsAppMessage s mobile i tres xres).finalState
  | ClientOp.batchSend items =>
    if sendAllDisabled s.messageStatuses then s else batchRun s 0 items
  | ClientOp.wsEvent ev => wsOnMessage s ev
  | ClientOp.newBatch => { messageStatuses := [], messageIds := [] }

/-- The item indices an operation dispatches (issues sends for). -/
def opDispatches (s : ClientState) : ClientOp → List Nat
  | ClientOp.itemSend i _ _ _ =>
    if sendBtnDisabled (statusAt s.messageStatuses i) then [] else [i]
  | ClientOp.batchSend items =>
    if sendAllDisabled s.messageStatuses then [] else List.range items.length
  | ClientOp.wsEvent _ => []
  | ClientOp.newBatch => []

/-- Send-start and send-completion times of the `sendAllMessages` loop:
each send is `await`ed to completion, and the pacing delay is inserted
after every send but the last.  `t` is the loop's start time, `durs` the
per-send durations. -/
def sendSchedule (delay t : Nat) : List Nat → List (Nat × Nat)
  | [] => []
  | [d] => [(t, t + d)]
  | d :: d2 :: rest => (t, t + d) :: sendSchedule delay (t + d + delay) (d2 :: rest)

/-- The schedule of `sendAllMessages`, whose fixed pacing delay is
1000 ms (`setTimeout(resolve, 1000)`). -/
def sendAllSchedule (durs : List Nat) : List (Nat × Nat) :=
  sendSchedule 1000 0 durs

/-! ## Client record lemmas -/

theorem mapGet_recSet {α : Type} (m : List (Nat × α)) (k k' : Nat) (v : α) :
    mapGet (recSet m k v) k' = if k = k' then some v else mapGet m k' := by
  induction m with
  | nil => exact mapGet_cons k v [] k'
  | cons p rest ih =>
    obtain ⟨k0, v0⟩ := p
    simp only [recSet]
    by_cases h0 : k = k0
    · rw [if_pos h0, mapGet_cons, mapGet_cons]
      by_cases h : k = k'
      · simp [h]
      · have hne : ¬ k0 = k' := fun hh => h (h0.trans hh)
        simp [h, hne]
    · rw [if_neg h0]
      by_cases h1 : k < k0
      · rw [if_pos h1]
        simp [mapGet_cons]
      · rw [if_neg h1, mapGet_cons, mapGet_cons, ih]
        by_cases ha : k0 = k'
        · have hb : ¬ k = k' := fun hh => h0 (hh.trans ha.symm)
          simp [ha, hb]
        · simp [ha]

theorem sendWhatsAppMessage_ids_frame (s : ClientState) (mobile : String)
    (index : Nat) (tres xres : SendResult) (j : Nat) (hne : j ≠ index) :
    mapGet (sendWhatsAppMessage s mobile index tres xres).finalState.messageIds j =
      mapGet s.messageIds j := by
  have hne' : ¬ index = j := fun hh => hne hh.symm
  unfold sendWhatsAppMessage applySendSuccess
  cases tres with
  | ok mid => cases mid <;> simp [mapGet_recSet, hne']
  | fail =>
    cases xres with
    | ok mid => cases mid <;> simp [mapGet_recSet, hne']
    | fail => simp

theorem batchRun_ids_frame (items : List BatchItem) (s : ClientState) (i j : Nat)
    (hj : j < i ∨ i + items.length ≤ j) :
    mapGet (batchRun s i items).messageIds j = mapGet s.messageIds j := by
  induction items generalizing s i with
  | nil => rfl
  | cons item rest ih =>
    have hji : j ≠ i := by
      rcases hj with h | h
      · omega
      · simp only [List.length_cons] at h; omega
    have hj' : j < i + 1 ∨ (i + 1) + rest.length ≤ j := by
      rcases hj with h | h
      · left; omega
      · right; simp only [List.length_cons] at h; omega
    calc mapGet (batchRun s i (item :: rest)).messageIds j
        = mapGet
            (sendWhatsAppMessage s item.mobile i item.templateRes
              item.textRes).finalState.messageIds j := by
          rw [batchRun]
          exact ih _ (i + 1) hj'
      _ = mapGet s.messageIds j :=
          sendWhatsAppMessage_ids_frame s item.mobile i item.templateRes item.textRes j hji

theorem wsOnMessage_ids (s : ClientState) (ev : ClientEvent) :
    (wsOnMessage s ev).messageIds = s.messageIds := by
  cases ev with
  | statusUpdate mid st =>
    unfold wsOnMessage
    dsimp only
    cases h : s.messageIds.find? (fun p => p.2 = mid) <;> rfl
  | initial _ => rfl

/-! ## Claim theorems: Dispatch fallback, reconciliation, snapshot frame -/

/-- C4: when the templated send fails, `sendWhatsAppMessage` attempts
exactly one free-text fallback send for the same item; if the fallback
succeeds and carries a provider id, the id is captured and the item is
marked `sent`; if the fallback also fails, the item's terminal state is
`error`, its recorded ids are untouched, and an alert naming the
destination is raised. -/
theorem sendWhatsAppMessage_fallback (s : ClientState) (mobile : String)
    (index : Nat) (textRes : SendResult) :
    (sendWhatsAppMessage s mobile index SendResult.fail textRes).textAttempts = 1 ∧
    (∀ mid, textRes = SendResult.ok (some mid) →
      mapGet (sendWhatsAppMessage s mobile index SendResult.fail
          textRes).finalState.messageIds index = some mid ∧
      mapGet (sendWhatsAppMessage s mobile index SendResult.fail
          textRes).finalState.messageStatuses index = some MessageStatus.sent) ∧
    (textRes = SendResult.fail →
      mapGet (sendWhatsAppMessage s mobile index SendResult.fail
          textRes).finalState.messageStatuses index = some MessageStatus.error ∧
      (sendWhatsAppMessage s mobile index SendResult.fail
          textRes).finalState.messageIds = s.messageIds ∧
      (sendWhatsAppMessage s mobile index SendResult.fail
          textRes).alerted = some mobile) := by
  refine ⟨?_, ?_, ?_⟩
  · cases textRes with
    | ok mid => rfl
    | fail => rfl
  · intro mid htext
    subst htext
    unfold sendWhatsAppMessage applySendSuccess
    simp [mapGet_recSet]
  · intro htext
    subst htext
    unfold sendWhatsAppMessage
    simp [mapGet_recSet]

/-- Witness for C4 at concrete inputs: a fallback that succeeds with id
"wamid.2x" records the id, and a double failure alerts naming the
destination. -/
theorem sendWhatsAppMessage_fallback_witness :
    mapGet (sendWhatsAppMessage ⟨[], []⟩ "919876543210" 0 SendResult.fail
        (SendResult.ok (some "wamid.2x"))).finalState.messageIds 0 =
      some "wamid.2x" ∧
    (sendWhatsAppMessage ⟨[], []⟩ "919876543210" 0 SendResult.fail
        SendResult.fail).alerted = some "919876543210" :=
  ⟨((sendWhatsAppMessage_fallback ⟨[], []⟩ "919876543210" 0
      (SendResult.ok (some "wamid.2x"))).2.1 "wamid.2x" rfl).1,
   ((sendWhatsAppMessage_fallback ⟨[], []⟩ "919876543210" 0
      SendResult.fail).2.2 rfl).2.2⟩

/-- C7: a `status_update` event whose id is in the id→index mapping sets
exactly the first matching index's displayed state to the event's state
(every other index and the mapping itself are untouched); an event whose
id is not mapped changes nothing at all. -/
theorem wsOnMessage_reconciliation (s : ClientState) (mid : String)
    (st : MessageStatus) :
    (∀ i idv, s.messageIds.find? (fun p => p.2 = mid) = some (i, idv) →
      mapGet (wsOnMessage s (ClientEvent.statusUpdate mid st)).messageStatuses i =
        some st ∧
      (∀ j, j ≠ i →
        mapGet (wsOnMessage s (ClientEvent.statusUpdate mid st)).messageStatuses j =
          mapGet s.messageStatuses j) ∧
      (wsOnMessage s (ClientEvent.statusUpdate mid st)).messageIds = s.messageIds) ∧
    (s.messageIds.find? (fun p => p.2 = mid) = none →
      wsOnMessage s (ClientEvent.statusUpdate mid st) = s) := by
  constructor
  · intro i idv hfind
    unfold wsOnMessage
    dsimp only
    rw [hfind]
    refine ⟨?_, ?_, rfl⟩
    · simp [mapGet_recSet]
    · intro j hj
      have hij : ¬ i = j := fun hh => hj hh.symm
      simp [mapGet_recSet, hij]
  · intro hfind
    unfold wsOnMessage
    dsimp only
    rw [hfind]

/-- Witness for C7 at a concrete mapping: a mapped id updates its index;
an unmapped id leaves the state unchanged. -/
theorem wsOnMessage_reconciliation_witness :
    mapGet (wsOnMessage ⟨[(0, MessageStatus.sent)], [(0, "wamid.1")]⟩
        (ClientEvent.statusUpdate "wamid.1" MessageStatus.delivered)).messageStatuses 0 =
      some MessageStatus.delivered ∧
    wsOnMessage ⟨[(0, MessageStatus.sent)], [(0, "wamid.1")]⟩
        (ClientEvent.statusUpdate "wamid.9" MessageStatus.delivered) =
      ⟨[(0, MessageStatus.sent)], [(0, "wamid.1")]⟩ :=
  ⟨((wsOnMessage_reconciliation ⟨[(0, MessageStatus.sent)], [(0, "wamid.1")]⟩
      "wamid.1" MessageStatus.delivered).1 0 "wamid.1" rfl).1,
   (wsOnMessage_reconciliation ⟨[(0, MessageStatus.sent)], [(0, "wamid.1")]⟩
      "wamid.9" MessageStatus.delivered).2 rfl⟩

/-- C10: an `initial` snapshot message leaves the client state — both
the per-index status record and the id→index mapping — completely
unchanged. -/
theorem wsOnMessage_initial_noop (s : ClientState)
    (statuses : List (String × String)) :
    wsOnMessage s (ClientEvent.initial statuses) = s := rfl

/-! ## Claim theorems: dispatch guards (C5) -/

/-- C5 as stated is false on the code: the whole-batch trigger has no
per-item guard.  With the single item of the batch already `sent`, the
`Send All Messages` button is enabled (no item is `sending`), the
operation dispatches index 0, yet index 0's status disables its
per-item button — a guarded item is re-dispatched. -/
theorem dispatch_guard_counterexample :
    ¬ (∀ (s : ClientState) (op : ClientOp) (i : Nat),
        i ∈ opDispatches s op →
        sendBtnDisabled (statusAt s.messageStatuses i) = false) := by
  intro hclaim
  have h := hclaim ⟨[(0, MessageStatus.sent)], [(0, "wamid.1")]⟩
    (ClientOp.batchSend
      [⟨"919876543210", SendResult.ok (some "wamid.9"), SendResult.fail⟩])
    0 (by decide)
  exact absurd h (by decide)

/-- C5 amended: the per-item trigger dispatches its item exactly when
the displayed status is `idle` or `error` (so `sending`, `sent`,
`delivered`, `read` items are never re-dispatched by it, while `error`
and idle items may be retried); the whole-batch trigger is blocked
exactly while some item is `sending`, and otherwise dispatches every
index of the batch regardless of its state. -/
theorem dispatch_guards (s : ClientState) :
    (∀ i mobile tres xres,
      opDispatches s (ClientOp.itemSend i mobile tres xres) =
        if statusAt s.messageStatuses i = MessageStatus.idle ∨
            statusAt s.messageStatuses i = MessageStatus.error then [i] else []) ∧
    (∀ items : List BatchItem, sendAllDisabled s.messageStatuses = false →
      opDispatches s (ClientOp.batchSend items) = List.range items.length) ∧
    (∀ items : List BatchItem, sendAllDisabled s.messageStatuses = true →
      opDispatches s (ClientOp.batchSend items) = []) := by
  refine ⟨?_, ?_, ?_⟩
  · intro i mobile tres xres
    unfold opDispatches
    cases h : statusAt s.messageStatuses i <;> simp [sendBtnDisabled, h]
  · intro items h
    unfold opDispatches
    rw [h]
    simp
  · intro items h
    unfold opDispatches
    rw [h]
    simp

/-- Witness for C5 (amended) at concrete states: an `error` item's
button dispatches it; a batch with one `sent` item is dispatched whole;
a batch with a `sending` item is blocked. -/
theorem dispatch_guards_witness :
    opDispatches ⟨[(0, MessageStatus.error)], []⟩
        (ClientOp.itemSend 0 "919876543210" SendResult.fail SendResult.fail) =
      [0] ∧
    opDispatches ⟨[(0, MessageStatus.sent)], []⟩
        (ClientOp.batchSend [⟨"919876543210", SendResult.fail, SendResult.fail⟩]) =
      [0] ∧
    opDispatches ⟨[(0, MessageStatus.sending)], []⟩
        (ClientOp.batchSend [⟨"919876543210", SendResult.fail, SendResult.fail⟩]) =
      [] :=
  ⟨((dispatch_guards ⟨[(0, MessageStatus.error)], []⟩).1 0 "919876543210"
      SendResult.fail SendResult.fail).trans (by decide),
   ((dispatch_guards ⟨[(0, MessageStatus.sent)], []⟩).2.1
      [⟨"919876543210", SendResult.fail, SendResult.fail⟩] (by decide)).trans
      (by decide),
   (dispatch_guards ⟨[(0, MessageStatus.sending)], []⟩).2.2
      [⟨"919876543210", SendResult.fail, SendResult.fail⟩] (by decide)⟩

/-! ## Claim theorems: sequencing and pacing (C8) -/

theorem sendSchedule_length (delay t : Nat) (durs : List Nat) :
    (sendSchedule delay t durs).length = durs.length := by
  induction durs generalizing t with
  | nil => rfl
  | cons d rest ih =>
    cases rest with
    | nil => rfl
    | cons d2 r2 =>
      show (sendSchedule delay (t + d + delay) (d2 :: r2)).length + 1 =
        (d2 :: r2).length + 1
      rw [ih]

theorem sendSchedule_head_start (delay t : Nat) (durs : List Nat)
    (h : 0 < (sendSchedule delay t durs).length) :
    ((sendSchedule delay t durs).get ⟨0, h⟩).1 = t := by
  cases durs with
  | nil => simp [sendSchedule] at h
  | cons d rest =>
    cases rest with
    | nil => rfl
    | cons d2 r2 => rfl

theorem sendSchedule_adjacent (durs : List Nat) (delay t i : Nat)
    (h : i + 1 < (sendSchedule delay t durs).length) :
    ((sendSchedule delay t durs).get ⟨i + 1, h⟩).1 =
      ((sendSchedule delay t durs).get ⟨i, Nat.lt_of_succ_lt h⟩).2 + delay := by
  induction durs generalizing t i with
  | nil => simp [sendSchedule] at h
  | cons d rest ih =>
    cases rest with
    | nil => simp [sendSchedule] at h
    | cons d2 r2 =>
      cases i with
      | zero =>
        have h' : 0 < (sendSchedule delay (t + d + delay) (d2 :: r2)).length := by
          rw [sendSchedule_length]
          simp
        show ((sendSchedule delay (t + d + delay) (d2 :: r2)).get ⟨0, h'⟩).1 =
          (t + d) + delay
        rw [sendSchedule_head_start]
      | succ j =>
        have h' : j + 1 < (sendSchedule delay (t + d + delay) (d2 :: r2)).length := by
          rw [sendSchedule_length]
          rw [sendSchedule_length] at h
          simp only [List.length_cons] at h ⊢
          omega
        exact ih (t + d + delay) j h'

theorem sendSchedule_start_le_finish (delay t : Nat) (durs : List Nat) (i : Nat)
    (h : i < (sendSchedule delay t durs).length) :
    ((sendSchedule delay t durs).get ⟨i, h⟩).1 ≤
      ((sendSchedule delay t durs).get ⟨i, h⟩).2 := by
  induction durs generalizing t i with
  | nil => simp [sendSchedule] at h
  | cons d rest ih =>
    cases rest with
    | nil =>
      cases i with
      | zero => exact Nat.le_add_right t d
      | succ j =>
        rw [sendSchedule_length] at h
        simp at h
    | cons d2 r2 =>
      cases i with
      | zero => exact Nat.le_add_right t d
      | succ j =>
        have h' : j < (sendSchedule delay (t + d + delay) (d2 :: r2)).length := by
          rw [sendSchedule_length]
          rw [sendSchedule_length] at h
          simp only [List.length_cons] at h ⊢
          omega
        exact ih (t + d + delay) j h'

/-- C8: in the `sendAllMessages` schedule, each send completes before
the next send starts (strictly sequential, never two simultaneous
sends), and successive send-start times are separated by at least the
fixed 1000 ms pacing delay. -/
theorem sendAllMessages_sequential_paced (durs : List Nat) (i : Nat)
    (h : i + 1 < (sendAllSchedule durs).length) :
    ((sendAllSchedule durs).get ⟨i, Nat.lt_of_succ_lt h⟩).2 ≤
      ((sendAllSchedule durs).get ⟨i + 1, h⟩).1 ∧
    ((sendAllSchedule durs).get ⟨i, Nat.lt_of_succ_lt h⟩).1 + 1000 ≤
      ((sendAllSchedule durs).get ⟨i + 1, h⟩).1 := by
  have hadj := sendSchedule_adjacent durs 1000 0 i h
  have hle := sendSchedule_start_le_finish 1000 0 durs i (Nat.lt_of_succ_lt h)
  unfold sendAllSchedule
  constructor
  · rw [hadj]
    omega
  · rw [hadj]
    omega

/-- Witness for C8 at a concrete batch of three sends with durations
5, 7, 3: the first send's completion precedes the second send's start,
and the two starts are at least 1000 ms apart. -/
theorem sendAllMessages_sequential_paced_witness :
    ((sendAllSchedule [5, 7, 3]).get ⟨0, by decide⟩).2 ≤
      ((sendAllSchedule [5, 7, 3]).get ⟨0 + 1, by decide⟩).1 ∧
    ((sendAllSchedule [5, 7, 3]).get ⟨0, by decide⟩).1 + 1000 ≤
      ((sendAllSchedule [5, 7, 3]).get ⟨0 + 1, by decide⟩).1 :=
  sendAllMessages_sequential_paced [5, 7, 3] 0 (by decide)

/-! ## Claim theorems: provider identifier stability (C9) -/

/-- C9 as stated is false on the code: a whole-batch send re-dispatches
an already-sent item and overwrites its recorded provider identifier
within the same batch.  Concretely, index 0 holds id "wamid.1" and is
`sent`; `Send All` is enabled (nothing is `sending`), re-sends index 0,
and the new response id "wamid.2" replaces "wamid.1". -/
theorem batchSend_overwrites_messageId :
    mapGet (ClientState.mk [(0, MessageStatus.sent)] [(0, "wamid.1")]).messageIds 0 =
      some "wamid.1" ∧
    mapGet (stepOp (ClientState.mk [(0, MessageStatus.sent)] [(0, "wamid.1")])
        (ClientOp.batchSend
          [⟨"919876543210", SendResult.ok (some "wamid.2"), SendResult.fail⟩])).messageIds
      0 = some "wamid.2" := by
  constructor <;> rfl

/-- C9 amended: a recorded provider identifier is preserved by every
operation that does not re-dispatch that item and does not prepare a new
batch; in particular reconciliation events, guarded per-item clicks, and
sends of other items never change it.  (It can be overwritten when a
whole-batch send re-dispatches the item, and it is cleared when a new
batch is prepared.) -/
theorem messageId_stable_without_redispatch (s : ClientState) (op : ClientOp)
    (i : Nat) (mid : String)
    (hset : mapGet s.messageIds i = some mid)
    (hnb : op ≠ ClientOp.newBatch)
    (hnd : i ∉ opDispatches s op) :
    mapGet (stepOp s op).messageIds i = some mid := by
  cases op with
  | itemSend j mobile tres xres =>
    unfold stepOp
    dsimp only
    by_cases hg : sendBtnDisabled (statusAt s.messageStatuses j) = true
    · rw [if_pos hg]
      exact hset
    · rw [if_neg hg]
      have hij : i ≠ j := by
        intro hh
        apply hnd
        unfold opDispatches
        dsimp only
        rw [if_neg hg]
        simp [hh]
      rw [sendWhatsAppMessage_ids_frame s mobile j tres xres i hij]
      exact hset
  | batchSend items =>
    unfold stepOp
    dsimp only
    by_cases hg : sendAllDisabled s.messageStatuses = true
    · rw [if_pos hg]
      exact hset
    · rw [if_neg hg]
      have hge : items.length ≤ i := by
        by_contra hlt
        apply hnd
        unfold opDispatches
        dsimp only
        rw [if_neg hg]
        exact List.mem_range.mpr (by omega)
      rw [batchRun_ids_frame items s 0 i (Or.inr (by omega))]
      exact hset
  | wsEvent ev =>
    unfold stepOp
    dsimp only
    rw [wsOnMessage_ids]
    exact hset
  | newBatch => exact absurd rfl hnb

/-- Witness for C9 (amended) at a concrete state: a reconciliation event
for the very item whose id is set leaves the recorded id "wamid.1" in
place. -/
theorem messageId_stable_without_redispatch_witness :
    mapGet (stepOp (ClientState.mk [(0, MessageStatus.sent)] [(0, "wamid.1")])
        (ClientOp.wsEvent
          (ClientEvent.statusUpdate "wamid.1" MessageStatus.delivered))).messageIds 0 =
      some "wamid.1" :=
  messageId_stable_without_redispatch
    (ClientState.mk [(0, MessageStatus.sent)] [(0, "wamid.1")])
    (ClientOp.wsEvent (ClientEvent.statusUpdate "wamid.1" MessageStatus.delivered))
    0 "wamid.1" rfl (by decide) (by decide)
